import Mathlib

/-!
# Verification of `Proyecto_8.py` — penalty-kick Monte Carlo simulator

A shallow embedding of the simulator in `src/Proyecto_8.py`, with proofs of
the specified properties.  Python floats are modelled as real numbers;
Python `int` values coming from `argparse` are modelled as `ℤ`; the shared
pseudorandom source (`random.random()`) is modelled as a stream
`ℕ → ℝ` of draws together with an explicit cursor that each Bernoulli
trial advances; a Python statement that can raise is modelled in the
`Except` monad (`ZeroDivisionError` is the only exception the translated
code can raise).
-/

namespace Proyecto8

/-- The only runtime error the translated code can raise: Python's
`ZeroDivisionError` (the script defines no error types of its own). -/
inductive PyError where
  | zeroDivisionError : PyError
  deriving DecidableEq, Repr

/-- `clamp(v, lo, hi)` as the specification writes it. -/
def clamp (v lo hi : ℝ) : ℝ := min (max v lo) hi

/-- `theoretical_prob(skill, distance, x, z)` from `Proyecto_8.py`:
`spread = math.sqrt(x**2/15 + z**2/15)`,
`base = skill - 0.015 * (distance - 11) - spread`,
`return min(max(base, 0.01), 0.99)`. -/
noncomputable def theoretical_prob (skill distance x z : ℝ) : ℝ :=
  let spread := Real.sqrt (x ^ 2 / 15 + z ^ 2 / 15)
  let base := skill - 0.015 * (distance - 11) - spread
  min (max base 0.01) 0.99

/-- The adjusted probability computed inside `simulate_player`
(lines 47–48): `p_real = p_teo - pressure; p_real = max(min(p_real, 0.99), 0.01)`. -/
def p_real_calc (p_teo pressure : ℝ) : ℝ :=
  max (min (p_teo - pressure) 0.99) 0.01

theorem theoretical_prob_le : ∀ skill distance x z,
    theoretical_prob skill distance x z ≤ 0.99 := by
  intro skill distance x z
  exact min_le_right _ _

theorem le_theoretical_prob : ∀ skill distance x z,
    0.01 ≤ theoretical_prob skill distance x z := by
  intro skill distance x z
  exact le_min (le_max_right _ _) (by norm_num)

/-- **C1.**  `theoretical_prob` is exactly
`clamp(skill − 0.015·(distance − 11) − sqrt(x²/15 + z²/15), 0.01, 0.99)`,
hence always lies in `[0.01, 0.99]`. -/
theorem theoretical_prob_eq_clamp_and_mem_Icc (skill distance x z : ℝ) :
    theoretical_prob skill distance x z =
      clamp (skill - 0.015 * (distance - 11) -
        Real.sqrt (x ^ 2 / 15 + z ^ 2 / 15)) 0.01 0.99 ∧
    0.01 ≤ theoretical_prob skill distance x z ∧
    theoretical_prob skill distance x z ≤ 0.99 :=
  ⟨rfl, le_theoretical_prob skill distance x z,
    theoretical_prob_le skill distance x z⟩

/-- **C2.**  `theoretical_prob` is non-increasing in distance and in the
absolute offsets `|x|`, `|z|` (holding the other inputs fixed): enlarging
any of them cannot increase the result. -/
theorem theoretical_prob_antitone (skill d₁ d₂ x₁ x₂ z₁ z₂ : ℝ)
    (hd : d₁ ≤ d₂) (hx : |x₁| ≤ |x₂|) (hz : |z₁| ≤ |z₂|) :
    theoretical_prob skill d₂ x₂ z₂ ≤ theoretical_prob skill d₁ x₁ z₁ := by
  have hx2 : x₁ ^ 2 ≤ x₂ ^ 2 := by
    calc x₁ ^ 2 = |x₁| ^ 2 := (sq_abs x₁).symm
    _ ≤ |x₂| ^ 2 := pow_le_pow_left₀ (abs_nonneg x₁) hx 2
    _ = x₂ ^ 2 := sq_abs x₂
  have hz2 : z₁ ^ 2 ≤ z₂ ^ 2 := by
    calc z₁ ^ 2 = |z₁| ^ 2 := (sq_abs z₁).symm
    _ ≤ |z₂| ^ 2 := pow_le_pow_left₀ (abs_nonneg z₁) hz 2
    _ = z₂ ^ 2 := sq_abs z₂
  have hsqrt : Real.sqrt (x₁ ^ 2 / 15 + z₁ ^ 2 / 15) ≤
      Real.sqrt (x₂ ^ 2 / 15 + z₂ ^ 2 / 15) := by
    apply Real.sqrt_le_sqrt
    linarith
  have hbase : skill - 0.015 * (d₂ - 11) - Real.sqrt (x₂ ^ 2 / 15 + z₂ ^ 2 / 15)
      ≤ skill - 0.015 * (d₁ - 11) - Real.sqrt (x₁ ^ 2 / 15 + z₁ ^ 2 / 15) := by
    linarith
  exact min_le_min (max_le_max hbase le_rfl) le_rfl

/-- Witness for C2 at a concrete input. -/
theorem theoretical_prob_antitone_witness :
    theoretical_prob 0.7 12 1 1 ≤ theoretical_prob 0.7 11 0 0 :=
  theoretical_prob_antitone 0.7 11 12 0 1 0 1 (by norm_num)
    (by simp) (by simp)

/-! ## Data model -/

/-- One entry of the module-level `PLAYERS` roster:
`{"name": ..., "skill": ..., "pressure": ...}`. -/
structure Player where
  name : String
  skill : ℝ
  pressure : ℝ

/-- The fixed roster `PLAYERS` of `Proyecto_8.py` (lines 8–19). -/
def PLAYERS : List Player :=
  [⟨"Lionel", 0.92, 0.03⟩, ⟨"Rafael", 0.85, 0.04⟩, ⟨"Carlos", 0.78, 0.05⟩,
   ⟨"Hector", 0.74, 0.06⟩, ⟨"Diego", 0.70, 0.07⟩, ⟨"Marco", 0.68, 0.05⟩,
   ⟨"Pablo", 0.66, 0.06⟩, ⟨"Andres", 0.64, 0.07⟩, ⟨"Javier", 0.60, 0.08⟩,
   ⟨"Luis", 0.58, 0.09⟩]

/-- One dictionary appended to `results` in `simulate_player` (lines 56–65).
`tiros` is the configured `--shots` value, a Python `int`, hence `ℤ`;
`goles` is a count of successes, hence `ℕ`. -/
structure SimRecord where
  player : String
  distance : ℝ
  x : ℝ
  z : ℝ
  p_teorica : ℝ
  tiros : ℤ
  goles : ℕ
  p_empirica : ℝ

/-- One dictionary appended to `ranking` in `compute_ranking` (lines 116–122). -/
structure RankEntry where
  player : String
  goles_totales : ℕ
  tiros_totales : ℤ
  tasa_empirica : ℝ
  tasa_teorica_prom : ℝ

/-- Python's `round(v, 4)`: round to four decimal places. -/
noncomputable def round4 (v : ℝ) : ℝ := ((round (v * 10000) : ℤ) : ℝ) / 10000

/-- Python's `round(v, 2)`: round to two decimal places. -/
noncomputable def round2 (v : ℝ) : ℝ := ((round (v * 100) : ℤ) : ℝ) / 100

/-! ## Cell sampler and simulation driver

`random.random()` is modelled as a stream `ℕ → ℝ` of draws together with a
cursor `k`; each Bernoulli trial consumes one draw and advances the cursor. -/

/-- The inner sampling loop of `simulate_player` (lines 50–54): draw `n`
Bernoulli trials starting at cursor `k`, counting how many draws fall below
`p_real`.  Returns the goal count together with the advanced cursor. -/
noncomputable def count_goals (stream : ℕ → ℝ) (p_real : ℝ) : ℕ → ℕ → ℕ × ℕ
  | 0, k => (0, k)
  | n + 1, k =>
    let hit : ℕ := if stream k < p_real then 1 else 0
    let rest := count_goals stream p_real n (k + 1)
    (hit + rest.1, rest.2)

/-- The body of the innermost loop of `simulate_player` (lines 46–65) for a
single cell `(dist, x, z)`.  Python's `goles / shots_per_cell` raises
`ZeroDivisionError` when `shots_per_cell` is `0`; for negative
`shots_per_cell`, `range(shots_per_cell)` is empty (modelled by `Int.toNat`)
and the division succeeds. -/
noncomputable def sim_cell (p : Player) (dist x z : ℝ) (shots : ℤ)
    (stream : ℕ → ℝ) (k : ℕ) : Except PyError (SimRecord × ℕ) :=
  let p_teo := theoretical_prob p.skill dist x z
  let p_real := p_real_calc p_teo p.pressure
  let res := count_goals stream p_real shots.toNat k
  if shots = 0 then .error .zeroDivisionError
  else .ok ({ player := p.name, distance := dist, x := x, z := z,
              p_teorica := round4 p_teo, tiros := shots, goles := res.1,
              p_empirica := round4 ((res.1 : ℝ) / (shots : ℝ)) }, res.2)

/-- The `for z in grid_z` loop of `simulate_player`. -/
noncomputable def sim_loop_z (p : Player) (dist x : ℝ) (gz : List ℝ)
    (shots : ℤ) (stream : ℕ → ℝ) (k : ℕ) :
    Except PyError (List SimRecord × ℕ) :=
  match gz with
  | [] => .ok ([], k)
  | z :: zs =>
    match sim_cell p dist x z shots stream k with
    | .error e => .error e
    | .ok (r, k1) =>
      match sim_loop_z p dist x zs shots stream k1 with
      | .error e => .error e
      | .ok (rs, k2) => .ok (r :: rs, k2)

/-- The `for x in grid_x` loop of `simulate_player`. -/
noncomputable def sim_loop_x (p : Player) (dist : ℝ) (gx gz : List ℝ)
    (shots : ℤ) (stream : ℕ → ℝ) (k : ℕ) :
    Except PyError (List SimRecord × ℕ) :=
  match gx with
  | [] => .ok ([], k)
  | x :: xs =>
    match sim_loop_z p dist x gz shots stream k with
    | .error e => .error e
    | .ok (rs₁, k1) =>
      match sim_loop_x p dist xs gz shots stream k1 with
      | .error e => .error e
      | .ok (rs₂, k2) => .ok (rs₁ ++ rs₂, k2)

/-- `simulate_player(player, grid_x, grid_z, distances, shots_per_cell)`
(lines 34–67): the `for dist in distances` loop collecting one record per
`(dist, x, z)` combination, in that nesting order. -/
noncomputable def simulate_player (p : Player) (grid_x grid_z : List ℝ)
    (distances : List ℝ) (shots_per_cell : ℤ) (stream : ℕ → ℝ) (k : ℕ) :
    Except PyError (List SimRecord × ℕ) :=
  match distances with
  | [] => .ok ([], k)
  | d :: ds =>
    match sim_loop_x p d grid_x grid_z shots_per_cell stream k with
    | .error e => .error e
    | .ok (rs₁, k1) =>
      match simulate_player p grid_x grid_z ds shots_per_cell stream k1 with
      | .error e => .error e
      | .ok (rs₂, k2) => .ok (rs₁ ++ rs₂, k2)

/-- The accumulation loop of `main` (lines 154–156):
`for p in PLAYERS: all_results += simulate_player(...)`. -/
noncomputable def run_simulation (players : List Player) (grid_x grid_z : List ℝ)
    (distances : List ℝ) (shots_per_cell : ℤ) (stream : ℕ → ℝ) (k : ℕ) :
    Except PyError (List SimRecord × ℕ) :=
  match players with
  | [] => .ok ([], k)
  | p :: ps =>
    match simulate_player p grid_x grid_z distances shots_per_cell stream k with
    | .error e => .error e
    | .ok (rs₁, k1) =>
      match run_simulation ps grid_x grid_z distances shots_per_cell stream k1 with
      | .error e => .error e
      | .ok (rs₂, k2) => .ok (rs₁ ++ rs₂, k2)

/-- The identifying fields of a record: which (player, distance, x, z)
combination it was generated for. -/
def recordKey (r : SimRecord) : String × ℝ × ℝ × ℝ := (r.player, r.distance, r.x, r.z)

/-! ## Grid generation (`main`, lines 139–143) -/

/-- `grid_x = [round(x, 2) for x in [(-3.66 + i * (7.32 / (args.nx - 1))) for i in range(args.nx)]]`.
The division `7.32 / (args.nx - 1)` is evaluated inside the comprehension
body, so with `nx = 1` the single iteration raises `ZeroDivisionError`,
while `nx ≤ 0` yields an empty list without evaluating the division. -/
noncomputable def make_grid_x (nx : ℤ) : Except PyError (List ℝ) :=
  (List.range nx.toNat).mapM fun i =>
    if nx - 1 = 0 then .error .zeroDivisionError
    else .ok (round2 (-3.66 + (i : ℝ) * (7.32 / ((nx : ℝ) - 1))))

/-- `grid_z = [round(z, 2) for z in [0.5 + i * (2.0 / (args.nz - 1)) for i in range(args.nz)]]`. -/
noncomputable def make_grid_z (nz : ℤ) : Except PyError (List ℝ) :=
  (List.range nz.toNat).mapM fun i =>
    if nz - 1 = 0 then .error .zeroDivisionError
    else .ok (round2 (0.5 + (i : ℝ) * (2.0 / ((nz : ℝ) - 1))))

/-! ## Ranking aggregator (`compute_ranking`, lines 105–125) -/

/-- The body of the `for j in jugadores` loop of `compute_ranking`
(lines 110–122).  `goals / shots` raises `ZeroDivisionError` when the
group's total shots are `0`; otherwise the subset is nonempty, so the
average over `len(subset)` cannot itself divide by zero. -/
noncomputable def rank_entry (results : List SimRecord) (j : String) :
    Except PyError RankEntry :=
  let subset := results.filter (fun r => r.player == j)
  let goals := (subset.map (fun r => r.goles)).sum
  let shots := (subset.map (fun r => r.tiros)).sum
  if shots = 0 then .error .zeroDivisionError
  else
    .ok { player := j, goles_totales := goals, tiros_totales := shots,
          tasa_empirica := round4 ((goals : ℝ) / (shots : ℝ)),
          tasa_teorica_prom :=
            round4 ((subset.map (fun r => r.p_teorica)).sum / (subset.length : ℝ)) }

/-- The `for j in jugadores` loop of `compute_ranking` (lines 109–122),
appending one aggregated entry per player name. -/
noncomputable def rank_loop (results : List SimRecord) :
    List String → Except PyError (List RankEntry)
  | [] => .ok []
  | j :: js =>
    match rank_entry results j with
    | .error e => .error e
    | .ok entry =>
      match rank_loop results js with
      | .error e => .error e
      | .ok rest => .ok (entry :: rest)

/-- `compute_ranking(results)`: group by the set of player names occurring
in `results`, aggregate each group, then `sort(key=..., reverse=True)` —
a stable descending sort by `tasa_empirica`.  Python iterates `set(...)` in
an unspecified order; the model fixes `List.dedup` as one concrete order
(every property proved below is independent of that order). -/
noncomputable def compute_ranking (results : List SimRecord) :
    Except PyError (List RankEntry) :=
  match rank_loop results ((results.map (fun r => r.player)).dedup) with
  | .error e => .error e
  | .ok ranking =>
    .ok (ranking.mergeSort (fun a b => decide (b.tasa_empirica ≤ a.tasa_empirica)))

/-! ## Theorems about the sampler -/

/-- Swapping the order of the two clamping operations: for `lo ≤ hi`,
`max (min v hi) lo = min (max v lo) hi`. -/
theorem max_min_eq_min_max (v lo hi : ℝ) (h : lo ≤ hi) :
    max (min v hi) lo = min (max v lo) hi := by
  rcases le_total v lo with h1 | h1
  · rw [min_eq_left (h1.trans h), max_eq_right h1, min_eq_left h]
  · rcases le_total v hi with h2 | h2
    · rw [min_eq_left h2, max_eq_left h1, min_eq_left h2]
    · rw [min_eq_right h2, max_eq_left h, max_eq_left h1, min_eq_right h2]

/-- **C3.**  The adjusted probability `p_real` computed in `simulate_player`
for a player with pressure in `(0,1)` equals
`clamp(p_teo − pressure, 0.01, 0.99)` and never exceeds the theoretical
probability `p_teo` of the cell. -/
theorem p_real_eq_clamp_and_le_p_teo (skill pressure distance x z : ℝ)
    (hp0 : 0 < pressure) (_hp1 : pressure < 1) :
    p_real_calc (theoretical_prob skill distance x z) pressure =
      clamp (theoretical_prob skill distance x z - pressure) 0.01 0.99 ∧
    p_real_calc (theoretical_prob skill distance x z) pressure ≤
      theoretical_prob skill distance x z := by
  constructor
  · exact max_min_eq_min_max _ _ _ (by norm_num)
  · apply max_le
    · exact (min_le_left _ _).trans (by linarith)
    · exact le_theoretical_prob skill distance x z

/-- Witness for C3 at a concrete input. -/
theorem p_real_eq_clamp_and_le_p_teo_witness :
    (0:ℝ) < 0.1 ∧ (0.1:ℝ) < 1 ∧
    (p_real_calc (theoretical_prob 0.5 11 1 1) 0.1 =
      clamp (theoretical_prob 0.5 11 1 1 - 0.1) 0.01 0.99 ∧
    p_real_calc (theoretical_prob 0.5 11 1 1) 0.1 ≤ theoretical_prob 0.5 11 1 1) :=
  ⟨by norm_num, by norm_num,
    p_real_eq_clamp_and_le_p_teo 0.5 0.1 11 1 1 (by norm_num) (by norm_num)⟩

/-- The sampling loop counts at most one goal per trial. -/
theorem count_goals_le (stream : ℕ → ℝ) (p_real : ℝ) :
    ∀ n k, (count_goals stream p_real n k).1 ≤ n := by
  intro n
  induction n with
  | zero => intro k; simp [count_goals]
  | succ m ih =>
    intro k
    simp only [count_goals]
    have := ih (k + 1)
    split <;> simp <;> omega

/-- For a nonzero shot count, `sim_cell` succeeds and produces the record
for its own cell, whose shot count is the configured one and whose goal
count is bounded by the number of trials. -/
theorem sim_cell_ok (p : Player) (dist x z : ℝ) (shots : ℤ)
    (stream : ℕ → ℝ) (k : ℕ) (hs : shots ≠ 0) :
    ∃ r k', sim_cell p dist x z shots stream k = .ok (r, k') ∧
      recordKey r = (p.name, dist, x, z) ∧
      r.tiros = shots ∧ r.goles ≤ shots.toNat := by
  simp only [sim_cell, if_neg hs]
  exact ⟨_, _, rfl, rfl, rfl, count_goals_le stream _ shots.toNat k⟩

/-- For a nonzero shot count, the `z` loop succeeds, producing one record
per `z` value in order. -/
theorem sim_loop_z_ok (p : Player) (dist x : ℝ) (gz : List ℝ) (shots : ℤ)
    (stream : ℕ → ℝ) (hs : shots ≠ 0) : ∀ k,
    ∃ rs k', sim_loop_z p dist x gz shots stream k = .ok (rs, k') ∧
      rs.map recordKey = gz.map (fun z => (p.name, dist, x, z)) ∧
      ∀ r ∈ rs, r.tiros = shots ∧ r.goles ≤ shots.toNat := by
  induction gz with
  | nil => intro k; exact ⟨[], k, rfl, rfl, by simp⟩
  | cons z zs ih =>
    intro k
    obtain ⟨r, k1, hr, hkey, ht, hg⟩ := sim_cell_ok p dist x z shots stream k hs
    obtain ⟨rs, k2, h, hmap, hb⟩ := ih k1
    refine ⟨r :: rs, k2, ?_, ?_, ?_⟩
    · simp only [sim_loop_z, hr, h]
    · simp [hmap, hkey]
    · intro r' hr'
      rcases List.mem_cons.mp hr' with h' | h'
      · exact h' ▸ ⟨ht, hg⟩
      · exact hb r' h'

/-- For a nonzero shot count, the `x` loop succeeds, producing the records
of all `(x, z)` combinations in order. -/
theorem sim_loop_x_ok (p : Player) (dist : ℝ) (gx gz : List ℝ) (shots : ℤ)
    (stream : ℕ → ℝ) (hs : shots ≠ 0) : ∀ k,
    ∃ rs k', sim_loop_x p dist gx gz shots stream k = .ok (rs, k') ∧
      rs.map recordKey =
        gx.flatMap (fun x => gz.map (fun z => (p.name, dist, x, z))) ∧
      ∀ r ∈ rs, r.tiros = shots ∧ r.goles ≤ shots.toNat := by
  induction gx with
  | nil => intro k; exact ⟨[], k, rfl, rfl, by simp⟩
  | cons x xs ih =>
    intro k
    obtain ⟨rs₁, k1, h1, hmap1, hb1⟩ := sim_loop_z_ok p dist x gz shots stream hs k
    obtain ⟨rs₂, k2, h2, hmap2, hb2⟩ := ih k1
    refine ⟨rs₁ ++ rs₂, k2, ?_, ?_, ?_⟩
    · simp only [sim_loop_x, h1, h2]
    · simp [hmap1, hmap2]
    · intro r' hr'
      rcases List.mem_append.mp hr' with h' | h'
      · exact hb1 r' h'
      · exact hb2 r' h'

/-- For a nonzero shot count, `simulate_player` succeeds, producing the
records of all `(dist, x, z)` combinations in order. -/
theorem simulate_player_ok (p : Player) (gx gz ds : List ℝ) (shots : ℤ)
    (stream : ℕ → ℝ) (hs : shots ≠ 0) : ∀ k,
    ∃ rs k', simulate_player p gx gz ds shots stream k = .ok (rs, k') ∧
      rs.map recordKey =
        ds.flatMap (fun d => gx.flatMap (fun x =>
          gz.map (fun z => (p.name, d, x, z)))) ∧
      ∀ r ∈ rs, r.tiros = shots ∧ r.goles ≤ shots.toNat := by
  induction ds with
  | nil => intro k; exact ⟨[], k, rfl, rfl, by simp⟩
  | cons d ds ih =>
    intro k
    obtain ⟨rs₁, k1, h1, hmap1, hb1⟩ := sim_loop_x_ok p d gx gz shots stream hs k
    obtain ⟨rs₂, k2, h2, hmap2, hb2⟩ := ih k1
    refine ⟨rs₁ ++ rs₂, k2, ?_, ?_, ?_⟩
    · simp only [simulate_player, h1, h2]
    · simp [hmap1, hmap2]
    · intro r' hr'
      rcases List.mem_append.mp hr' with h' | h'
      · exact hb1 r' h'
      · exact hb2 r' h'

/-- For a nonzero shot count, the whole simulation succeeds, producing the
records of all `(player, dist, x, z)` combinations in order. -/
theorem run_simulation_ok (players : List Player) (gx gz ds : List ℝ)
    (shots : ℤ) (stream : ℕ → ℝ) (hs : shots ≠ 0) : ∀ k,
    ∃ rs k', run_simulation players gx gz ds shots stream k = .ok (rs, k') ∧
      rs.map recordKey =
        players.flatMap (fun p => ds.flatMap (fun d => gx.flatMap (fun x =>
          gz.map (fun z => (p.name, d, x, z))))) ∧
      ∀ r ∈ rs, r.tiros = shots ∧ r.goles ≤ shots.toNat := by
  induction players with
  | nil => intro k; exact ⟨[], k, rfl, rfl, by simp⟩
  | cons p ps ih =>
    intro k
    obtain ⟨rs₁, k1, h1, hmap1, hb1⟩ := simulate_player_ok p gx gz ds shots stream hs k
    obtain ⟨rs₂, k2, h2, hmap2, hb2⟩ := ih k1
    refine ⟨rs₁ ++ rs₂, k2, ?_, ?_, ?_⟩
    · simp only [run_simulation, h1, h2]
    · simp [hmap1, hmap2]
    · intro r' hr'
      rcases List.mem_append.mp hr' with h' | h'
      · exact hb1 r' h'
      · exact hb2 r' h'

/-- Auxiliary: the length of a `flatMap` whose pieces all have length `n`. -/
theorem length_flatMap_const {α β : Type} (l : List α) (f : α → List β) (n : ℕ)
    (h : ∀ a ∈ l, (f a).length = n) : (l.flatMap f).length = l.length * n := by
  induction l with
  | nil => simp
  | cons a as ih =>
    simp only [List.flatMap_cons, List.length_append, List.length_cons]
    rw [h a (List.mem_cons_self a as), ih (fun b hb => h b (List.mem_cons_of_mem a hb))]
    ring

/-- A sample player used to instantiate the theorems at concrete inputs. -/
def testPlayer : Player := ⟨"A", 0.5, 0.1⟩

/-- **C5.**  For a nonzero shot count the simulation succeeds and produces
exactly `|players| · |distances| · |grid_x| · |grid_z|` records, one per
combination, ordered with the player outermost, then distance, then `x`,
then `z`. -/
theorem run_simulation_record_count (players : List Player) (gx gz ds : List ℝ)
    (shots : ℤ) (stream : ℕ → ℝ) (k : ℕ) (hs : shots ≠ 0) :
    ∃ rs k', run_simulation players gx gz ds shots stream k = .ok (rs, k') ∧
      rs.map recordKey =
        players.flatMap (fun p => ds.flatMap (fun d => gx.flatMap (fun x =>
          gz.map (fun z => (p.name, d, x, z))))) ∧
      rs.length = players.length * ds.length * gx.length * gz.length := by
  obtain ⟨rs, k', h, hmap, _⟩ := run_simulation_ok players gx gz ds shots stream hs k
  refine ⟨rs, k', h, hmap, ?_⟩
  have hlen := congrArg List.length hmap
  rw [List.length_map] at hlen
  rw [hlen]
  rw [length_flatMap_const _ _ (ds.length * (gx.length * gz.length)) ?_]
  · ring
  intro p _
  rw [length_flatMap_const _ _ (gx.length * gz.length) ?_]
  intro d _
  rw [length_flatMap_const _ _ gz.length ?_]
  intro x _
  exact List.length_map gz _

/-- Witness for C5 at a concrete input. -/
theorem run_simulation_record_count_witness :
    ∃ rs k', run_simulation [testPlayer] [0] [0] [11] 1 (fun _ => 0) 0 = .ok (rs, k') ∧
      rs.map recordKey =
        [testPlayer].flatMap (fun p => [(11:ℝ)].flatMap (fun d => [(0:ℝ)].flatMap (fun x =>
          [(0:ℝ)].map (fun z => (p.name, d, x, z))))) ∧
      rs.length = [testPlayer].length * [(11:ℝ)].length * [(0:ℝ)].length * [(0:ℝ)].length :=
  run_simulation_record_count [testPlayer] [0] [0] [11] 1 (fun _ => 0) 0 (by norm_num)

/-- **C6** (amended).  For a positive shot count, every record produced by
`simulate_player` satisfies `0 ≤ goles ≤ tiros`. -/
theorem simulate_player_goles_bounds (p : Player) (gx gz ds : List ℝ)
    (shots : ℤ) (stream : ℕ → ℝ) (k : ℕ) (hs : 0 < shots) :
    ∃ rs k', simulate_player p gx gz ds shots stream k = .ok (rs, k') ∧
      ∀ r ∈ rs, 0 ≤ (r.goles : ℤ) ∧ (r.goles : ℤ) ≤ r.tiros := by
  obtain ⟨rs, k', h, _, hb⟩ := simulate_player_ok p gx gz ds shots stream hs.ne' k
  refine ⟨rs, k', h, fun r hr => ⟨Int.ofNat_nonneg _, ?_⟩⟩
  obtain ⟨ht, hg⟩ := hb r hr
  rw [ht]
  calc (r.goles : ℤ) ≤ (shots.toNat : ℤ) := by exact_mod_cast hg
  _ = shots := Int.toNat_of_nonneg hs.le

/-- Witness for C6 at a concrete input. -/
theorem simulate_player_goles_bounds_witness :
    ∃ rs k', simulate_player testPlayer [0] [0] [11] 1 (fun _ => 0) 0 = .ok (rs, k') ∧
      ∀ r ∈ rs, 0 ≤ (r.goles : ℤ) ∧ (r.goles : ℤ) ≤ r.tiros :=
  simulate_player_goles_bounds testPlayer [0] [0] [11] 1 (fun _ => 0) 0 (by norm_num)

/-- Counterexample to C6 as stated: with the unvalidated configured shot
count `-1` (Python's `range(-1)` is empty and `0 / -1` succeeds),
`simulate_player` produces a record whose `goles` (= 0) strictly exceeds
its `tiros` (= -1). -/
theorem simulate_player_negative_shots_cex :
    simulate_player testPlayer [0] [0] [11] (-1) (fun _ => 0) 0 =
      .ok ([{ player := "A", distance := 11, x := 0, z := 0,
              p_teorica := round4 (theoretical_prob 0.5 11 0 0),
              tiros := -1, goles := 0,
              p_empirica := round4 (((0:ℕ) : ℝ) / (((-1:ℤ) : ℝ))) }], 0) ∧
    ¬ (((0:ℕ) : ℤ) ≤ (-1 : ℤ)) :=
  ⟨rfl, by decide⟩

/-- **C4** (divergence): at the failing input `shots = 0` the sampler
raises an unguarded `ZeroDivisionError` (the script defines no
`InvalidConfiguration` error at all). -/
theorem simulate_player_zero_shots_zero_division :
    simulate_player testPlayer [0] [0] [11] 0 (fun _ => 0) 0 =
      .error .zeroDivisionError :=
  rfl

/-- **C9** (divergence): with grid dimension `nx = 1` or `nz = 1` the grid
generation raises an unguarded `ZeroDivisionError` instead of a validated
`InvalidConfiguration` error. -/
theorem make_grid_dim1_zero_division :
    make_grid_x 1 = .error .zeroDivisionError ∧
    make_grid_z 1 = .error .zeroDivisionError :=
  ⟨rfl, rfl⟩

/-! ## Theorems about the ranking aggregator -/

/-- A successful `rank_entry` for name `j` carries exactly the name `j`. -/
theorem rank_entry_player (results : List SimRecord) (j : String) (e : RankEntry)
    (h : rank_entry results j = .ok e) : e.player = j := by
  simp only [rank_entry] at h
  split at h
  · cases h
  · cases h; rfl

/-- A successful `rank_loop` produces one entry per name, in order. -/
theorem rank_loop_players (results : List SimRecord) :
    ∀ (names : List String) (es : List RankEntry),
    rank_loop results names = .ok es → es.map (fun e => e.player) = names := by
  intro names
  induction names with
  | nil => intro es h; cases h; rfl
  | cons j js ih =>
    intro es h
    simp only [rank_loop] at h
    cases he : rank_entry results j with
    | error e => rw [he] at h; cases h
    | ok entry =>
      rw [he] at h
      cases hr : rank_loop results js with
      | error e2 => rw [hr] at h; cases h
      | ok rest =>
        rw [hr] at h
        cases h
        simp [ih rest hr, rank_entry_player results j entry he]

/-- **C7.**  A ranking returned by `compute_ranking` is sorted in
descending order of `tasa_empirica`: every earlier entry's empirical rate
is at least every later entry's. -/
theorem compute_ranking_sorted (results : List SimRecord) (ranking : List RankEntry)
    (h : compute_ranking results = .ok ranking) :
    List.Sorted (fun a b : RankEntry => b.tasa_empirica ≤ a.tasa_empirica) ranking := by
  simp only [compute_ranking] at h
  cases hl : rank_loop results ((results.map (fun r => r.player)).dedup) with
  | error e => rw [hl] at h; cases h
  | ok entries =>
    rw [hl] at h
    cases h
    have htrans : ∀ (a b c : RankEntry),
        decide (b.tasa_empirica ≤ a.tasa_empirica) = true →
        decide (c.tasa_empirica ≤ b.tasa_empirica) = true →
        decide (c.tasa_empirica ≤ a.tasa_empirica) = true := by
      intro a b c hab hbc
      simp only [decide_eq_true_eq] at *
      exact le_trans hbc hab
    have htotal : ∀ (a b : RankEntry),
        (decide (b.tasa_empirica ≤ a.tasa_empirica) ||
         decide (a.tasa_empirica ≤ b.tasa_empirica)) = true := by
      intro a b
      rcases le_total b.tasa_empirica a.tasa_empirica with h' | h' <;> simp [h']
    have hp := List.sorted_mergeSort htrans htotal entries
    exact hp.imp (fun hab => of_decide_eq_true hab)

/-- **C8** (amended).  The names of a returned ranking are a permutation of
the distinct player names occurring in the input records — exactly one
entry per such player, no duplicates, no omissions. -/
theorem compute_ranking_covers (results : List SimRecord) (ranking : List RankEntry)
    (h : compute_ranking results = .ok ranking) :
    (ranking.map (fun e => e.player)).Perm
      ((results.map (fun r => r.player)).dedup) ∧
    (ranking.map (fun e => e.player)).Nodup := by
  simp only [compute_ranking] at h
  cases hl : rank_loop results ((results.map (fun r => r.player)).dedup) with
  | error e => rw [hl] at h; cases h
  | ok entries =>
    rw [hl] at h
    cases h
    have hnames := rank_loop_players results _ entries hl
    have hperm := List.mergeSort_perm entries
      (fun a b => decide (b.tasa_empirica ≤ a.tasa_empirica))
    have hmp := hperm.map (fun e => e.player)
    rw [hnames] at hmp
    exact ⟨hmp, hmp.nodup_iff.mpr (List.nodup_dedup _)⟩

/-- A concrete simulation record to instantiate the ranking theorems. -/
def r0 : SimRecord :=
  { player := "Lionel", distance := 11, x := 0, z := 0,
    p_teorica := 0.5, tiros := 1, goles := 1, p_empirica := 1 }

/-- The ranking entry `compute_ranking` produces from `[r0]`. -/
def e0 : RankEntry :=
  { player := "Lionel", goles_totales := 1, tiros_totales := 1,
    tasa_empirica := 1, tasa_teorica_prom := 0.5 }

/-- Concrete evaluation of `compute_ranking` on a one-record input. -/
theorem compute_ranking_r0 : compute_ranking [r0] = .ok [e0] := by
  simp only [compute_ranking, rank_loop, rank_entry, r0]
  norm_num [round4, round_eq, List.mergeSort_singleton, e0]

/-- Witness for C7 at a concrete input. -/
theorem compute_ranking_sorted_witness :
    List.Sorted (fun a b : RankEntry => b.tasa_empirica ≤ a.tasa_empirica) [e0] :=
  compute_ranking_sorted [r0] [e0] compute_ranking_r0

/-- Witness for C8 at a concrete input. -/
theorem compute_ranking_covers_witness :
    (([e0].map (fun e => e.player)).Perm
      (([r0].map (fun r => r.player)).dedup)) ∧
    ([e0].map (fun e => e.player)).Nodup :=
  compute_ranking_covers [r0] [e0] compute_ranking_r0

/-- Counterexample to C8 as stated: a roster player with zero matching
records ("Rafael" here) is silently dropped — `compute_ranking` returns
`.ok` with no entry for them and raises no `InvariantViolation` (the script
defines no such error). -/
theorem compute_ranking_silent_drop_cex :
    compute_ranking [r0] = .ok [e0] ∧
    "Rafael" ∈ PLAYERS.map (fun p => p.name) ∧
    "Rafael" ∉ [e0].map (fun e => e.player) :=
  ⟨compute_ranking_r0, by simp [PLAYERS], by simp [e0]⟩

/-! ## Frame properties

To state that `simulate_player` and `compute_ranking` mutate none of their
inputs, the two functions are re-translated statement by statement with the
Python objects they can reach held in an explicit state record.  The only
assignments in their bodies (`results.append(...)` in the sampler, building
and in-place sorting `ranking` in the aggregator) target the function-local
lists, which the state threading makes visible. -/

/-- The objects reachable from `simulate_player`: its four input objects and
the function-local `results` list that the innermost loop appends to. -/
structure SimSt where
  player : Player
  grid_x : List ℝ
  grid_z : List ℝ
  distances : List ℝ
  results : List SimRecord

/-- One innermost-loop body of `simulate_player`, acting on the state: it
reads `player` and appends one record to `results`, writing nothing else. -/
noncomputable def sim_cell_st (s : SimSt) (dist x z : ℝ) (shots : ℤ)
    (stream : ℕ → ℝ) (k : ℕ) : Except PyError (SimSt × ℕ) :=
  let p_teo := theoretical_prob s.player.skill dist x z
  let p_real := p_real_calc p_teo s.player.pressure
  let res := count_goals stream p_real shots.toNat k
  if shots = 0 then .error .zeroDivisionError
  else .ok ({ s with results := s.results ++
      [{ player := s.player.name, distance := dist, x := x, z := z,
         p_teorica := round4 p_teo, tiros := shots, goles := res.1,
         p_empirica := round4 ((res.1 : ℝ) / (shots : ℝ)) }] }, res.2)

/-- The `for z in grid_z` loop, threading the state. -/
noncomputable def sim_z_st : SimSt → ℝ → ℝ → List ℝ → ℤ → (ℕ → ℝ) → ℕ →
    Except PyError (SimSt × ℕ)
  | s, _, _, [], _, _, k => .ok (s, k)
  | s, dist, x, z :: zs, shots, stream, k =>
    match sim_cell_st s dist x z shots stream k with
    | .error e => .error e
    | .ok (s1, k1) => sim_z_st s1 dist x zs shots stream k1

/-- The `for x in grid_x` loop; the `z` list is read from the state when the
inner loop is entered. -/
noncomputable def sim_x_st : SimSt → ℝ → List ℝ → ℤ → (ℕ → ℝ) → ℕ →
    Except PyError (SimSt × ℕ)
  | s, _, [], _, _, k => .ok (s, k)
  | s, dist, x :: xs, shots, stream, k =>
    match sim_z_st s dist x s.grid_z shots stream k with
    | .error e => .error e
    | .ok (s1, k1) => sim_x_st s1 dist xs shots stream k1

/-- The `for dist in distances` loop; the `x` list is read from the state
when the inner loop is entered. -/
noncomputable def sim_d_st : SimSt → List ℝ → ℤ → (ℕ → ℝ) → ℕ →
    Except PyError (SimSt × ℕ)
  | s, [], _, _, k => .ok (s, k)
  | s, d :: ds, shots, stream, k =>
    match sim_x_st s d s.grid_x shots stream k with
    | .error e => .error e
    | .ok (s1, k1) => sim_d_st s1 ds shots stream k1

/-- `simulate_player`, statement-by-statement stateful translation. -/
noncomputable def simulate_player_st (s : SimSt) (shots : ℤ)
    (stream : ℕ → ℝ) (k : ℕ) : Except PyError (SimSt × ℕ) :=
  sim_d_st s s.distances shots stream k

/-- The object `compute_ranking` receives: the `results` list. -/
structure RankSt where
  results : List SimRecord

/-- The `for j in jugadores` loop of `compute_ranking`, stateful
translation: reads `results` from the state, appends to the local
`ranking` list. -/
noncomputable def rank_loop_st :
    RankSt → List RankEntry → List String → Except PyError (RankSt × List RankEntry)
  | t, ranking, [] => .ok (t, ranking)
  | t, ranking, j :: js =>
    match rank_entry t.results j with
    | .error e => .error e
    | .ok entry => rank_loop_st t (ranking ++ [entry]) js

/-- `compute_ranking`, stateful translation: the final `ranking.sort(...)`
replaces the local `ranking` list's contents, not the input. -/
noncomputable def compute_ranking_st (t : RankSt) :
    Except PyError (RankSt × List RankEntry) :=
  match rank_loop_st t [] ((t.results.map (fun r => r.player)).dedup) with
  | .error e => .error e
  | .ok (t1, ranking) =>
    .ok (t1, ranking.mergeSort (fun a b => decide (b.tasa_empirica ≤ a.tasa_empirica)))

/-- A cell step leaves every input object of the state unchanged. -/
theorem sim_cell_st_frame (s : SimSt) (dist x z : ℝ) (shots : ℤ)
    (stream : ℕ → ℝ) (k : ℕ) (s' : SimSt) (k' : ℕ)
    (h : sim_cell_st s dist x z shots stream k = .ok (s', k')) :
    s'.player = s.player ∧ s'.grid_x = s.grid_x ∧
    s'.grid_z = s.grid_z ∧ s'.distances = s.distances := by
  simp only [sim_cell_st] at h
  split at h
  · cases h
  · cases h; exact ⟨rfl, rfl, rfl, rfl⟩

/-- The `z` loop leaves every input object of the state unchanged. -/
theorem sim_z_st_frame (dist x : ℝ) (gz : List ℝ) (shots : ℤ) (stream : ℕ → ℝ) :
    ∀ (s : SimSt) (k : ℕ) (s' : SimSt) (k' : ℕ),
    sim_z_st s dist x gz shots stream k = .ok (s', k') →
    s'.player = s.player ∧ s'.grid_x = s.grid_x ∧
    s'.grid_z = s.grid_z ∧ s'.distances = s.distances := by
  induction gz with
  | nil => intro s k s' k' h; cases h; exact ⟨rfl, rfl, rfl, rfl⟩
  | cons z zs ih =>
    intro s k s' k' h
    simp only [sim_z_st] at h
    cases hc : sim_cell_st s dist x z shots stream k with
    | error e => rw [hc] at h; cases h
    | ok sk =>
      rw [hc] at h
      obtain ⟨h1, h2, h3, h4⟩ := sim_cell_st_frame s dist x z shots stream k sk.1 sk.2 (by rw [hc])
      obtain ⟨g1, g2, g3, g4⟩ := ih sk.1 sk.2 s' k' h
      exact ⟨g1.trans h1, g2.trans h2, g3.trans h3, g4.trans h4⟩

/-- The `x` loop leaves every input object of the state unchanged. -/
theorem sim_x_st_frame (dist : ℝ) (gx : List ℝ) (shots : ℤ) (stream : ℕ → ℝ) :
    ∀ (s : SimSt) (k : ℕ) (s' : SimSt) (k' : ℕ),
    sim_x_st s dist gx shots stream k = .ok (s', k') →
    s'.player = s.player ∧ s'.grid_x = s.grid_x ∧
    s'.grid_z = s.grid_z ∧ s'.distances = s.distances := by
  induction gx with
  | nil => intro s k s' k' h; cases h; exact ⟨rfl, rfl, rfl, rfl⟩
  | cons x xs ih =>
    intro s k s' k' h
    simp only [sim_x_st] at h
    cases hc : sim_z_st s dist x s.grid_z shots stream k with
    | error e => rw [hc] at h; cases h
    | ok sk =>
      rw [hc] at h
      obtain ⟨h1, h2, h3, h4⟩ := sim_z_st_frame dist x s.grid_z shots stream s k sk.1 sk.2 (by rw [hc])
      obtain ⟨g1, g2, g3, g4⟩ := ih sk.1 sk.2 s' k' h
      exact ⟨g1.trans h1, g2.trans h2, g3.trans h3, g4.trans h4⟩

/-- The distance loop leaves every input object of the state unchanged. -/
theorem sim_d_st_frame (ds : List ℝ) (shots : ℤ) (stream : ℕ → ℝ) :
    ∀ (s : SimSt) (k : ℕ) (s' : SimSt) (k' : ℕ),
    sim_d_st s ds shots stream k = .ok (s', k') →
    s'.player = s.player ∧ s'.grid_x = s.grid_x ∧
    s'.grid_z = s.grid_z ∧ s'.distances = s.distances := by
  induction ds with
  | nil => intro s k s' k' h; cases h; exact ⟨rfl, rfl, rfl, rfl⟩
  | cons d ds ih =>
    intro s k s' k' h
    simp only [sim_d_st] at h
    cases hc : sim_x_st s d s.grid_x shots stream k with
    | error e => rw [hc] at h; cases h
    | ok sk =>
      rw [hc] at h
      obtain ⟨h1, h2, h3, h4⟩ := sim_x_st_frame d s.grid_x shots stream s k sk.1 sk.2 (by rw [hc])
      obtain ⟨g1, g2, g3, g4⟩ := ih sk.1 sk.2 s' k' h
      exact ⟨g1.trans h1, g2.trans h2, g3.trans h3, g4.trans h4⟩

/-- The aggregation loop leaves the input record list unchanged. -/
theorem rank_loop_st_frame :
    ∀ (names : List String) (t : RankSt) (ranking : List RankEntry)
      (t' : RankSt) (rk : List RankEntry),
    rank_loop_st t ranking names = .ok (t', rk) → t'.results = t.results := by
  intro names
  induction names with
  | nil => intro t ranking t' rk h; cases h; rfl
  | cons j js ih =>
    intro t ranking t' rk h
    simp only [rank_loop_st] at h
    cases hc : rank_entry t.results j with
    | error e => rw [hc] at h; cases h
    | ok entry =>
      rw [hc] at h
      exact ih t (ranking ++ [entry]) t' rk h

/-- **C10.**  Neither `simulate_player` nor `compute_ranking` mutates its
inputs: after a successful `simulate_player` the player record, `grid_x`,
`grid_z` and `distances` are unchanged, and after a successful
`compute_ranking` the input record list (hence every record in it) is
unchanged — the ranking is a fresh local list. -/
theorem no_input_mutation :
    (∀ (s : SimSt) (shots : ℤ) (stream : ℕ → ℝ) (k : ℕ) (s' : SimSt) (k' : ℕ),
      simulate_player_st s shots stream k = .ok (s', k') →
      s'.player = s.player ∧ s'.grid_x = s.grid_x ∧
      s'.grid_z = s.grid_z ∧ s'.distances = s.distances) ∧
    (∀ (t t' : RankSt) (rk : List RankEntry),
      compute_ranking_st t = .ok (t', rk) → t'.results = t.results) := by
  constructor
  · intro s shots stream k s' k' h
    exact sim_d_st_frame s.distances shots stream s k s' k' h
  · intro t t' rk h
    simp only [compute_ranking_st] at h
    cases hc : rank_loop_st t [] ((t.results.map (fun r => r.player)).dedup) with
    | error e => rw [hc] at h; cases h
    | ok tr =>
      rw [hc] at h
      cases h
      exact rank_loop_st_frame _ t [] tr.1 tr.2 (by rw [hc])

end Proyecto8
